import Mathlib

/-!
Shallow embedding of the AssetVerse server (src/index.js), an Express/MongoDB
HR asset-management backend.  The MongoDB collections `assets`, `requests` and
`users` are modelled as association lists keyed by `Nat` (standing for
`ObjectId`); each Express route handler that the claims mention is translated
into a pure Lean function on an explicit database state.  JS `Date` values are
modelled as `Nat` clock ticks supplied by the caller; Mongo `null` fields are
`Option`; numeric quantities are `Int` (a bare `$inc` may drive them negative).
-/

/-- An `assets` collection document, as built by POST /hr/assets
(index.js lines 290-299): `availableQuantity` starts equal to
`productQuantity`. -/
structure Asset where
  productName : String
  productImage : String
  productType : String
  productQuantity : Int
  availableQuantity : Int
  dateAdded : Nat
  hrEmail : Option String
  companyName : String
  deriving DecidableEq, Repr

/-- A `requests` collection document, as built by POST /employee/requests
(index.js lines 405-419); `returnDate` is absent at creation and only set by
the return handler, modelled as an `Option` that starts `none`. -/
structure Request where
  assetId : Option Nat
  assetName : String
  assetType : String
  hrEmail : Option String
  companyName : String
  requesterName : String
  requesterEmail : String
  assetImage : Option String
  requestDate : Nat
  approvalDate : Option Nat
  requestStatus : String
  note : String
  processedBy : Option String
  returnDate : Option Nat
  deriving DecidableEq, Repr

/-- A `users` collection document, restricted to the fields the modelled
routes read (the my-team projection at index.js lines 525-532). -/
structure User where
  name : String
  email : String
  role : String
  profileImage : Option String
  dateOfBirth : Option String
  position : Option String
  deriving DecidableEq, Repr

/-- The projection applied by GET /employee/my-team/:email to each colleague
document (index.js lines 525-532). -/
structure ProfileSummary where
  name : String
  email : String
  profileImage : Option String
  dateOfBirth : Option String
  position : Option String
  deriving DecidableEq, Repr

/-- The database: the three collections the modelled routes touch. -/
structure DB where
  assets : List (Nat × Asset)
  requests : List (Nat × Request)
  users : List User
  deriving DecidableEq, Repr

/-- `col.findOne ⟨_id: id⟩`: first document with the given key. -/
def findOne {α : Type} : List (Nat × α) → Nat → Option α
  | [], _ => none
  | p :: rest, id => if p.1 = id then some p.2 else findOne rest id

/-- `col.updateOne ⟨_id: id⟩ ⟨$set/$inc ...⟩`: rewrite the first document with
the given key by `f`; a no-op when no document matches (matchedCount 0). -/
def updateFirst {α : Type} : List (Nat × α) → Nat → (α → α) → List (Nat × α)
  | [], _, _ => []
  | p :: rest, id, f =>
    if p.1 = id then (p.1, f p.2) :: rest else p :: updateFirst rest id f

/-- `[...new Set(xs)]`: deduplicate keeping the first occurrence of each
element, as a JS `Set` does (filtering the recursive result keeps exactly
the first occurrence of each element, in order). -/
def jsSetDedup : List String → List String
  | [] => []
  | x :: xs => x :: (jsSetDedup xs).filter (fun y => y ≠ x)

/-- HTTP outcome of POST /hr/assets. -/
inductive AddAssetResult
  | created (id : Nat)
  | badRequest
  deriving DecidableEq, Repr

/-- POST /hr/assets (index.js lines 273-307).  Rejects when any of the four
product fields is falsy (note `Number(0)` is falsy, so quantity 0 is
rejected); otherwise inserts an asset whose `availableQuantity` is
initialised to `productQuantity`. -/
def addAsset (db : DB) (productName productImage productType : Option String)
    (productQuantity : Option Int) (hrEmail companyName : Option String)
    (newId : Nat) (now : Nat) : AddAssetResult × DB :=
  match productName, productImage, productType, productQuantity with
  | some n, some im, some ty, some q =>
    if q = 0 then (.badRequest, db)
    else
      let asset : Asset :=
        { productName := n, productImage := im, productType := ty
          productQuantity := q, availableQuantity := q, dateAdded := now
          hrEmail := hrEmail, companyName := companyName.getD "" }
      (.created newId, { db with assets := db.assets ++ [(newId, asset)] })
  | _, _, _, _ => (.badRequest, db)

/-- HTTP outcome of PATCH /hr/assets/:id. -/
inductive UpdateAssetResult
  | ok
  | notFound
  deriving DecidableEq, Repr

/-- PATCH /hr/assets/:id (index.js lines 335-365).  Applies the provided
fields; when `productQuantity` is present (`!== undefined`) both
`productQuantity` and `availableQuantity` are reset to it. -/
def updateAsset (db : DB) (id : Nat)
    (productName productImage productType : Option String)
    (productQuantity : Option Int) : UpdateAssetResult × DB :=
  match findOne db.assets id with
  | none => (.notFound, db)
  | some _ =>
    let f : Asset → Asset := fun a =>
      let a := match productName with
        | some n => { a with productName := n } | none => a
      let a := match productImage with
        | some im => { a with productImage := im } | none => a
      let a := match productType with
        | some ty => { a with productType := ty } | none => a
      match productQuantity with
      | some q => { a with productQuantity := q, availableQuantity := q }
      | none => a
    (.ok, { db with assets := updateFirst db.assets id f })

/-- HTTP outcome of DELETE /hr/assets/:id. -/
inductive DeleteAssetResult
  | ok
  | notFound
  deriving DecidableEq, Repr

/-- DELETE /hr/assets/:id (index.js lines 368-380). -/
def deleteAsset (db : DB) (id : Nat) : DeleteAssetResult × DB :=
  match findOne db.assets id with
  | none => (.notFound, db)
  | some _ => (.ok, { db with assets := db.assets.filter (fun p => p.1 ≠ id) })

/-- HTTP outcome of POST /employee/requests. -/
inductive SubmitResult
  | created (id : Nat)
  | badRequest
  deriving DecidableEq, Repr

/-- POST /employee/requests (index.js lines 385-431).  Requires only
`assetId` and `requesterEmail` to be present; every denormalised field
(`assetName`, `assetType`, `assetImage`, `companyName`, `hrEmail`) is copied
from the client body — the handler never reads the assets collection.  The
stored document gets `requestStatus` "pending", a server-side `requestDate`,
and null `approvalDate` / `processedBy`. -/
def submitRequest (db : DB) (assetId : Option Nat)
    (assetName assetType : String) (companyName hrEmail : Option String)
    (requesterName : String) (requesterEmail : Option String)
    (note assetImage : Option String) (newId : Nat) (now : Nat) :
    SubmitResult × DB :=
  match assetId, requesterEmail with
  | some aid, some remail =>
    let doc : Request :=
      { assetId := some aid, assetName := assetName, assetType := assetType
        hrEmail := hrEmail, companyName := companyName.getD "Unknown Company"
        requesterName := requesterName, requesterEmail := remail
        assetImage := assetImage, requestDate := now, approvalDate := none
        requestStatus := "pending", note := note.getD "", processedBy := none
        returnDate := none }
    (.created newId, { db with requests := db.requests ++ [(newId, doc)] })
  | _, _ => (.badRequest, db)

/-- HTTP outcome of PATCH /hr/requests/:id/approve and .../reject. -/
inductive ApproveResult
  | ok
  | notFound
  | alreadyProcessed
  deriving DecidableEq, Repr

/-- Outcome of the read-and-validate phase of the approve handler, up to the
first `await` that writes (index.js lines 569-575). -/
inductive ApproveCheck
  | fail (r : ApproveResult)
  | proceed (req : Request)
  deriving DecidableEq, Repr

/-- Read-and-validate phase of PATCH /hr/requests/:id/approve (index.js
lines 569-575): 404 when the request is absent, 400 when its status is not
"pending". -/
def approveCheck (db : DB) (id : Nat) : ApproveCheck :=
  match findOne db.requests id with
  | none => .fail .notFound
  | some req =>
    if req.requestStatus ≠ "pending" then .fail .alreadyProcessed
    else .proceed req

/-- Inventory write of the approve handler (index.js lines 577-582): an
unconditional `$inc availableQuantity -1` on the asset named by the request
document read earlier; skipped when `request.assetId` is falsy, a silent
no-op when no asset matches. -/
def applyDecrement (db : DB) (req : Request) : DB :=
  match req.assetId with
  | some aid =>
    let assets1 := updateFirst db.assets aid
      (fun a => { a with availableQuantity := a.availableQuantity - 1 })
    { db with assets := assets1 }
  | none => db

/-- Status write of the approve handler (index.js lines 586-595): a `$set`
filtered by `_id` only — no condition on the stored status. -/
def applyApproveStatus (db : DB) (id : Nat) (now : Nat) : DB :=
  let requests1 := updateFirst db.requests id
    (fun r => { r with requestStatus := "approved", approvalDate := some now
                       processedBy := some "HR" })
  { db with requests := requests1 }

/-- PATCH /hr/requests/:id/approve (index.js lines 565-602), run to
completion without interleaving: validate, then decrement inventory, then
mark the request approved. -/
def approveRequest (db : DB) (id : Nat) (now : Nat) : ApproveResult × DB :=
  match approveCheck db id with
  | .fail r => (r, db)
  | .proceed req => (.ok, applyApproveStatus (applyDecrement db req) id now)

/-- Two approve calls A and B on the same request id, interleaved on the
schedule read(A), read(B), write(A), write(B): both `findOne` reads complete
before either call's `await`ed writes run.  Each phase is exactly the
corresponding phase of `approveRequest`; the schedule only splits the handler
at its `await` boundaries.  Returns (result of A, result of B, final db). -/
def approveRace (db : DB) (id : Nat) (t1 t2 : Nat) :
    ApproveResult × ApproveResult × DB :=
  match approveCheck db id with
  | .fail r1 =>
    let rb := approveRequest db id t2
    (r1, rb.1, rb.2)
  | .proceed reqA =>
    match approveCheck db id with
    | .fail r2 => (.ok, r2, applyApproveStatus (applyDecrement db reqA) id t1)
    | .proceed reqB =>
      let dbA := applyApproveStatus (applyDecrement db reqA) id t1
      let dbB := applyApproveStatus (applyDecrement dbA reqB) id t2
      (.ok, .ok, dbB)

/-- PATCH /hr/requests/:id/reject (index.js lines 605-633): same validation
as approve, then a single `$set` on the request; the assets collection is
never touched. -/
def rejectRequest (db : DB) (id : Nat) (now : Nat) : ApproveResult × DB :=
  match findOne db.requests id with
  | none => (.notFound, db)
  | some req =>
    if req.requestStatus ≠ "pending" then (.alreadyProcessed, db)
    else
      let requests1 := updateFirst db.requests id
        (fun r => { r with requestStatus := "rejected"
                           approvalDate := some now
                           processedBy := some "HR" })
      (.ok, { db with requests := requests1 })

/-- HTTP outcome of PATCH /employee/requests/:id/return. -/
inductive ReturnResult
  | ok
  | notFound
  | invalidState
  | invalidAssetType
  deriving DecidableEq, Repr

/-- PATCH /employee/requests/:id/return (index.js lines 449-489): 404 when
absent, 400 unless status is "approved", 400 unless the snapshotted
`assetType` is "Returnable"; then mark the request returned and `$inc` the
asset's `availableQuantity` by 1 (a silent no-op when the asset record no
longer exists). -/
def returnAsset (db : DB) (id : Nat) (now : Nat) : ReturnResult × DB :=
  match findOne db.requests id with
  | none => (.notFound, db)
  | some req =>
    if req.requestStatus ≠ "approved" then (.invalidState, db)
    else if req.assetType ≠ "Returnable" then (.invalidAssetType, db)
    else
      let requests1 := updateFirst db.requests id
        (fun r => { r with requestStatus := "returned", returnDate := some now })
      let assets1 := match req.assetId with
        | some aid => updateFirst db.assets aid
            (fun a => { a with availableQuantity := a.availableQuantity + 1 })
        | none => db.assets
      (.ok, { db with requests := requests1, assets := assets1 })

/-- One entry of the GET /employee/my-team/:email response. -/
structure TeamGroup where
  companyName : String
  colleagues : List ProfileSummary
  deriving DecidableEq, Repr

/-- The projection `⟨name, email, profileImage, dateOfBirth, position⟩`
applied to each colleague (index.js lines 525-532). -/
def projectSummary (u : User) : ProfileSummary :=
  { name := u.name, email := u.email, profileImage := u.profileImage
    dateOfBirth := u.dateOfBirth, position := u.position }

/-- `req.companyName || 'Unknown Company'` (index.js line 508). -/
def companyNameOrDefault (s : String) : String :=
  if s = "" then "Unknown Company" else s

/-- Body of the per-company loop of GET /employee/my-team/:email (index.js
lines 514-539): gather the approved requests with this exact stored
`companyName`; `continue` (here: `none`) when there are none; otherwise
deduplicate the requester emails and fetch the matching user documents
projected to summaries. -/
def teamGroupFor (db : DB) (c : String) : Option TeamGroup :=
  let companyReqs := db.requests.filter
    (fun p => p.2.companyName = c ∧ p.2.requestStatus = "approved")
  if companyReqs.isEmpty then none
  else
    let emails := jsSetDedup (companyReqs.map (fun p => p.2.requesterEmail))
    some { companyName := c
           colleagues := (db.users.filter
             (fun u => u.email ∈ emails)).map projectSummary }

/-- GET /employee/my-team/:email (index.js lines 494-546): collect the
distinct (defaulted) company names of the caller's approved requests and run
the per-company loop body `teamGroupFor` over them. -/
def teamOf (db : DB) (email : String) : List TeamGroup :=
  if (db.requests.filter
      (fun p => p.2.requesterEmail = email ∧
        p.2.requestStatus = "approved")).isEmpty then []
  else
    (jsSetDedup ((db.requests.filter
      (fun p => p.2.requesterEmail = email ∧
        p.2.requestStatus = "approved")).map
          (fun p => companyNameOrDefault p.2.companyName))).filterMap
      (teamGroupFor db)

/-! Concrete sample documents used to instantiate the theorems below. -/

/-- A sample "Returnable" asset with one unit in stock. -/
def sampleAsset : Asset :=
  { productName := "Laptop", productImage := "laptop.png"
    productType := "Returnable", productQuantity := 1, availableQuantity := 1
    dateAdded := 0, hrEmail := some "hr@acme.com", companyName := "Acme" }

/-- A sample pending request for `sampleAsset` (stored under id 1). -/
def sampleRequest : Request :=
  { assetId := some 1, assetName := "Laptop", assetType := "Returnable"
    hrEmail := some "hr@acme.com", companyName := "Acme"
    requesterName := "Eve", requesterEmail := "eve@acme.com"
    assetImage := none, requestDate := 0, approvalDate := none
    requestStatus := "pending", note := "", processedBy := none
    returnDate := none }

/-- A sample employee user document. -/
def sampleUser : User :=
  { name := "Eve", email := "eve@acme.com", role := "employee"
    profileImage := none, dateOfBirth := none, position := none }

/-- Empty database. -/
def dbEmpty : DB := { assets := [], requests := [], users := [] }

/-- One unit in stock, one pending request for it. -/
def dbPending : DB :=
  { assets := [(1, sampleAsset)], requests := [(1, sampleRequest)]
    users := [sampleUser] }

/-- Zero units in stock, one pending request for the asset. -/
def dbZeroStock : DB :=
  { assets := [(1, { sampleAsset with availableQuantity := 0 })]
    requests := [(1, sampleRequest)], users := [] }

/-- Two units in stock, one pending request for the asset. -/
def dbTwoStock : DB :=
  { assets := [(1, { sampleAsset with
                     productQuantity := 2
                     availableQuantity := 2 })]
    requests := [(1, sampleRequest)], users := [] }

/-- One approved request, asset still present. -/
def dbApproved : DB :=
  { assets := [(1, sampleAsset)]
    requests := [(1, { sampleRequest with requestStatus := "approved" })]
    users := [] }

/-- One approved request whose asset record has been deleted. -/
def dbApprovedGone : DB :=
  { assets := []
    requests := [(1, { sampleRequest with requestStatus := "approved" })]
    users := [] }

/-- One pending request whose asset record has been deleted. -/
def dbPendingGone : DB :=
  { assets := [], requests := [(1, sampleRequest)], users := [] }

/-- A second sample employee user document. -/
def fayUser : User := { sampleUser with email := "fay@acme.com", name := "Fay" }

/-- An approved request by Eve at Acme. -/
def reqApprovedEve : Request :=
  { sampleRequest with requestStatus := "approved" }

/-- An approved request by Fay at Acme. -/
def reqApprovedFay : Request :=
  { sampleRequest with
    requestStatus := "approved", requesterEmail := "fay@acme.com"
    requesterName := "Fay" }

/-- Team database: Eve has two approved requests at Acme, Fay one. -/
def dbTeam : DB :=
  { assets := []
    requests := [(1, reqApprovedEve),
                 (2, { reqApprovedEve with requestDate := 1 }),
                 (3, reqApprovedFay)]
    users := [sampleUser, fayUser] }

/-- Operation sequence: create an asset with quantity 1 (step 1), submit two
requests for it (steps 2-3), approve both (steps 4-5). -/
def c2Step1 : AddAssetResult × DB :=
  addAsset dbEmpty (some "Laptop") (some "laptop.png") (some "Returnable")
    (some 1) (some "hr@acme.com") (some "Acme") 1 0

/-- Second step of the sequence: first request. -/
def c2Step2 : SubmitResult × DB :=
  submitRequest c2Step1.2 (some 1) "Laptop" "Returnable" (some "Acme")
    (some "hr@acme.com") "Eve" (some "eve@acme.com") none none 1 1

/-- Third step of the sequence: second request. -/
def c2Step3 : SubmitResult × DB :=
  submitRequest c2Step2.2 (some 1) "Laptop" "Returnable" (some "Acme")
    (some "hr@acme.com") "Eve" (some "eve@acme.com") none none 2 2

/-- Fourth step of the sequence: approve the first request. -/
def c2Step4 : ApproveResult × DB := approveRequest c2Step3.2 1 3

/-- Fifth step of the sequence: approve the second request. -/
def c2Step5 : ApproveResult × DB := approveRequest c2Step4.2 2 4

/-! Store-level helper lemmas. -/

theorem findOne_updateFirst_self {α : Type} (l : List (Nat × α)) (id : Nat)
    (f : α → α) : findOne (updateFirst l id f) id = (findOne l id).map f := by
  induction l with
  | nil => simp [findOne, updateFirst]
  | cons p rest ih =>
    by_cases h : p.1 = id
    · simp [findOne, updateFirst, h]
    · simp [findOne, updateFirst, h, ih]

theorem findOne_updateFirst_ne {α : Type} (l : List (Nat × α)) (id id' : Nat)
    (f : α → α) (h : id' ≠ id) :
    findOne (updateFirst l id f) id' = findOne l id' := by
  induction l with
  | nil => simp [updateFirst]
  | cons p rest ih =>
    by_cases h1 : p.1 = id
    · have h2 : id ≠ id' := fun hc => h hc.symm
      simp [findOne, updateFirst, h1, h2]
    · simp only [updateFirst, h1, if_false]
      by_cases h3 : p.1 = id'
      · simp [findOne, h3]
      · simp [findOne, h3, ih]

theorem updateFirst_of_findOne_none {α : Type} (l : List (Nat × α)) (id : Nat)
    (f : α → α) (h : findOne l id = none) : updateFirst l id f = l := by
  induction l with
  | nil => simp [updateFirst]
  | cons p rest ih =>
    by_cases h1 : p.1 = id
    · simp [findOne, h1] at h
    · simp only [findOne, h1, if_false] at h
      simp [updateFirst, h1, ih h]

theorem mem_jsSetDedup (l : List String) (x : String) :
    x ∈ jsSetDedup l ↔ x ∈ l := by
  induction l with
  | nil => simp [jsSetDedup]
  | cons y ys ih =>
    by_cases h : x = y
    · simp [jsSetDedup, h]
    · simp [jsSetDedup, List.mem_filter, h, ih]

theorem nodup_jsSetDedup (l : List String) : (jsSetDedup l).Nodup := by
  induction l with
  | nil => simp [jsSetDedup]
  | cons y ys ih =>
    simp only [jsSetDedup]
    refine List.nodup_cons.mpr ⟨?_, List.Nodup.filter _ ih⟩
    simp [List.mem_filter]

/-! Frame lemmas for the approve phases. -/

theorem applyDecrement_requests (db : DB) (req : Request) :
    (applyDecrement db req).requests = db.requests := by
  unfold applyDecrement
  cases req.assetId <;> rfl

theorem applyApproveStatus_assets (db : DB) (id now : Nat) :
    (applyApproveStatus db id now).assets = db.assets := rfl

theorem approveRequest_eq_of_proceed (db : DB) (id now : Nat) (req : Request)
    (hfind : findOne db.requests id = some req)
    (hpend : req.requestStatus = "pending") :
    approveRequest db id now =
      (ApproveResult.ok, applyApproveStatus (applyDecrement db req) id now) := by
  have hcheck : approveCheck db id = ApproveCheck.proceed req := by
    simp [approveCheck, hfind, hpend]
  simp [approveRequest, hcheck]

/-! Claim theorems. -/

/-- Claim C1, counterexample: on a pending request whose asset has
`availableQuantity = 0`, the approve call does not fail — it returns Ok,
marks the request approved with a timestamp and processor identity, and
decrements the asset's available quantity to -1.  (The handler's result type
has no InsufficientInventory outcome at all.) -/
theorem approve_zero_stock_counterexample :
    (approveRequest dbZeroStock 1 5).1 = ApproveResult.ok ∧
    findOne (approveRequest dbZeroStock 1 5).2.assets 1 =
      some { sampleAsset with availableQuantity := -1 } ∧
    findOne (approveRequest dbZeroStock 1 5).2.requests 1 =
      some { sampleRequest with
             requestStatus := "approved", approvalDate := some 5, processedBy := some "HR" } := by
  decide

/-- Claim C1, amended: the approve handler performs no inventory guard.  On
a pending request whose referenced asset exists with `availableQuantity = 0`,
the call returns Ok, the asset's available quantity is decremented to -1,
and the request is mutated to approved with approval timestamp and
processor identity "HR". -/
theorem approve_zero_stock_amended (db : DB) (id now : Nat) (req : Request)
    (aid : Nat) (a : Asset)
    (hfind : findOne db.requests id = some req)
    (hpend : req.requestStatus = "pending")
    (haid : req.assetId = some aid)
    (hasset : findOne db.assets aid = some a)
    (hzero : a.availableQuantity = 0) :
    (approveRequest db id now).1 = ApproveResult.ok ∧
    findOne (approveRequest db id now).2.assets aid =
      some { a with availableQuantity := -1 } ∧
    findOne (approveRequest db id now).2.requests id =
      some { req with requestStatus := "approved", approvalDate := some now
                      processedBy := some "HR" } := by
  rw [approveRequest_eq_of_proceed db id now req hfind hpend]
  refine ⟨rfl, ?_, ?_⟩
  · rw [applyApproveStatus_assets]
    simp only [applyDecrement, haid]
    rw [findOne_updateFirst_self, hasset]
    simp [hzero]
  · simp only [applyApproveStatus]
    rw [applyDecrement_requests, findOne_updateFirst_self, hfind]
    rfl

/-- Claim C1, witness for the amended theorem at a concrete database. -/
theorem approve_zero_stock_amended_witness :
    (approveRequest dbZeroStock 1 5).1 = ApproveResult.ok ∧
    findOne (approveRequest dbZeroStock 1 5).2.assets 1 =
      some { { sampleAsset with availableQuantity := 0 } with
             availableQuantity := -1 } ∧
    findOne (approveRequest dbZeroStock 1 5).2.requests 1 =
      some { sampleRequest with
             requestStatus := "approved", approvalDate := some 5, processedBy := some "HR" } :=
  approve_zero_stock_amended dbZeroStock 1 5 sampleRequest 1
    { sampleAsset with availableQuantity := 0 }
    (by decide) (by decide) (by decide) (by decide) (by decide)

/-- Claim C2, counterexample: starting from an empty database, create an
asset with quantity 1, submit two requests for it, and approve both: every
step succeeds and the final available quantity is -1, violating
`0 ≤ available_quantity`. -/
theorem inventory_invariant_counterexample :
    c2Step1.1 = AddAssetResult.created 1 ∧
    c2Step2.1 = SubmitResult.created 1 ∧
    c2Step3.1 = SubmitResult.created 2 ∧
    c2Step4.1 = ApproveResult.ok ∧
    c2Step5.1 = ApproveResult.ok ∧
    findOne c2Step5.2.assets 1 =
      some { sampleAsset with availableQuantity := -1 } ∧
    ¬ (0 ≤ (-1 : Int)) := by
  decide

/-- Claim C2, amended: asset creation establishes
`availableQuantity = productQuantity`, but the workflow does not maintain
`0 ≤ availableQuantity ≤ productQuantity`: approval decrements the available
quantity by exactly 1 with no lower-bound guard, whatever its current value,
so repeated approvals drive it negative. -/
theorem approve_decrement_unconditional (db : DB) (id now : Nat)
    (req : Request) (aid : Nat) (a : Asset)
    (hfind : findOne db.requests id = some req)
    (hpend : req.requestStatus = "pending")
    (haid : req.assetId = some aid)
    (hasset : findOne db.assets aid = some a) :
    (approveRequest db id now).1 = ApproveResult.ok ∧
    findOne (approveRequest db id now).2.assets aid =
      some { a with availableQuantity := a.availableQuantity - 1 } := by
  rw [approveRequest_eq_of_proceed db id now req hfind hpend]
  refine ⟨rfl, ?_⟩
  rw [applyApproveStatus_assets]
  simp only [applyDecrement, haid]
  rw [findOne_updateFirst_self, hasset]
  rfl

/-- Claim C2, witness for the amended theorem at a concrete database. -/
theorem approve_decrement_unconditional_witness :
    (approveRequest dbPending 1 5).1 = ApproveResult.ok ∧
    findOne (approveRequest dbPending 1 5).2.assets 1 =
      some { sampleAsset with
             availableQuantity := sampleAsset.availableQuantity - 1 } :=
  approve_decrement_unconditional dbPending 1 5 sampleRequest 1 sampleAsset
    (by decide) (by decide) (by decide) (by decide)

/-- Claim C3, counterexample: the interleaving of two approve calls on the
same pending request in which both reads precede both writes.  The request
undergoes a single pending-to-approved transition, yet the asset's available
quantity drops by 2 (from 2 to 0) and no compensating increment restores it;
neither call observes an error. -/
theorem approve_no_compensation_counterexample :
    (approveRace dbTwoStock 1 10 11).1 = ApproveResult.ok ∧
    (approveRace dbTwoStock 1 10 11).2.1 = ApproveResult.ok ∧
    findOne (approveRace dbTwoStock 1 10 11).2.2.requests 1 =
      some { sampleRequest with
             requestStatus := "approved", approvalDate := some 11, processedBy := some "HR" } ∧
    findOne (approveRace dbTwoStock 1 10 11).2.2.assets 1 =
      some { sampleAsset with productQuantity := 2, availableQuantity := 0 } := by
  decide

/-- Claim C3, amended: the approve handler has no conditional status update
and no compensating rollback.  What does hold is the sequential half of the
claim: every non-Ok outcome of a single approve call happens before any
write, so the database — in particular every asset's available quantity —
is exactly as before the call. -/
theorem approve_error_outcome_frame (db : DB) (id now : Nat)
    (h : (approveRequest db id now).1 ≠ ApproveResult.ok) :
    (approveRequest db id now).2 = db := by
  cases hc : approveCheck db id with
  | fail r => simp [approveRequest, hc]
  | proceed req =>
    exfalso
    apply h
    simp [approveRequest, hc]

/-- Claim C3, witness for the amended theorem: rejecting-state approve call
(request already approved) leaves the database untouched. -/
theorem approve_error_outcome_frame_witness :
    (approveRequest dbApproved 1 5).2 = dbApproved :=
  approve_error_outcome_frame dbApproved 1 5 (by decide)

/-- Claim C4, counterexample: in the interleaving of two approve calls on
the same pending request where both reads precede both writes, both calls
return Ok (not exactly one) and the asset's available quantity is
decremented twice (from 1 to -1, not exactly once): the status write is
filtered by id only, never by the expected current status. -/
theorem approve_race_counterexample :
    (approveRace dbPending 1 10 11).1 = ApproveResult.ok ∧
    (approveRace dbPending 1 10 11).2.1 = ApproveResult.ok ∧
    findOne (approveRace dbPending 1 10 11).2.2.assets 1 =
      some { sampleAsset with availableQuantity := -1 } := by
  decide

/-- Claim C4, amended: only when the two approve calls run sequentially does
the claimed outcome obtain: the first returns Ok and decrements the asset's
available quantity by exactly 1, and the second observes the request as
already processed (the handler's pre-read check, not a conditional write)
and leaves the database unchanged. -/
theorem approve_sequential_exactly_once (db : DB) (id t1 t2 : Nat)
    (req : Request) (aid : Nat) (a : Asset)
    (hfind : findOne db.requests id = some req)
    (hpend : req.requestStatus = "pending")
    (haid : req.assetId = some aid)
    (hasset : findOne db.assets aid = some a) :
    (approveRequest db id t1).1 = ApproveResult.ok ∧
    (approveRequest (approveRequest db id t1).2 id t2).1 =
      ApproveResult.alreadyProcessed ∧
    (approveRequest (approveRequest db id t1).2 id t2).2 =
      (approveRequest db id t1).2 ∧
    findOne (approveRequest db id t1).2.assets aid =
      some { a with availableQuantity := a.availableQuantity - 1 } := by
  rw [approveRequest_eq_of_proceed db id t1 req hfind hpend]
  have hreq1 : findOne
      (applyApproveStatus (applyDecrement db req) id t1).requests id =
      some { req with requestStatus := "approved", approvalDate := some t1
                      processedBy := some "HR" } := by
    simp only [applyApproveStatus]
    rw [applyDecrement_requests, findOne_updateFirst_self, hfind]
    rfl
  have hcheck2 : approveCheck
      (applyApproveStatus (applyDecrement db req) id t1) id =
      ApproveCheck.fail ApproveResult.alreadyProcessed := by
    simp [approveCheck, hreq1]
  refine ⟨rfl, ?_, ?_, ?_⟩
  · simp [approveRequest, hcheck2]
  · simp [approveRequest, hcheck2]
  · rw [applyApproveStatus_assets]
    simp only [applyDecrement, haid]
    rw [findOne_updateFirst_self, hasset]
    rfl

/-- Claim C4, witness for the amended theorem at a concrete database. -/
theorem approve_sequential_exactly_once_witness :
    (approveRequest dbPending 1 10).1 = ApproveResult.ok ∧
    (approveRequest (approveRequest dbPending 1 10).2 1 11).1 =
      ApproveResult.alreadyProcessed ∧
    (approveRequest (approveRequest dbPending 1 10).2 1 11).2 =
      (approveRequest dbPending 1 10).2 ∧
    findOne (approveRequest dbPending 1 10).2.assets 1 =
      some { sampleAsset with
             availableQuantity := sampleAsset.availableQuantity - 1 } :=
  approve_sequential_exactly_once dbPending 1 10 11 sampleRequest 1
    sampleAsset (by decide) (by decide) (by decide) (by decide)

/-- Claim C5: the reject handler never touches the assets collection — on
every outcome each asset document is exactly as before — and on a non-Ok
outcome the whole database is unchanged; on success (which requires the
request to exist with status "pending") the only change is the single
request document, which gets status "rejected", the approval timestamp and
the processor identity "HR". -/
theorem reject_frame (db : DB) (id now : Nat) :
    (rejectRequest db id now).2.assets = db.assets ∧
    ((rejectRequest db id now).1 ≠ ApproveResult.ok →
      (rejectRequest db id now).2 = db) ∧
    (∀ req, findOne db.requests id = some req →
      req.requestStatus = "pending" →
      (rejectRequest db id now).1 = ApproveResult.ok ∧
      (rejectRequest db id now).2.requests = updateFirst db.requests id
        (fun r => { r with requestStatus := "rejected"
                           approvalDate := some now
                           processedBy := some "HR" })) := by
  cases hf : findOne db.requests id with
  | none => simp [rejectRequest, hf]
  | some req =>
    by_cases hp : req.requestStatus = "pending"
    · simp [rejectRequest, hf, hp]
    · simp [rejectRequest, hf, hp]

/-- Claim C5, witness: at a concrete database with a pending request, the
reject call succeeds, leaves the assets untouched, and rewrites only the
request's status, approval timestamp and processor identity. -/
theorem reject_frame_witness :
    (rejectRequest dbPending 1 7).2.assets = dbPending.assets ∧
    (rejectRequest dbPending 1 7).1 = ApproveResult.ok ∧
    (rejectRequest dbPending 1 7).2.requests =
      updateFirst dbPending.requests 1
        (fun r => { r with requestStatus := "rejected"
                           approvalDate := some 7
                           processedBy := some "HR" }) :=
  ⟨(reject_frame dbPending 1 7).1,
   ((reject_frame dbPending 1 7).2.2 sampleRequest (by decide) (by decide)).1,
   ((reject_frame dbPending 1 7).2.2 sampleRequest (by decide) (by decide)).2⟩

/-- Claim C6: the return call succeeds exactly when the request exists with
status "approved" and snapshotted asset type "Returnable"; on success the
referenced asset's available quantity is incremented by exactly 1 (the first
document with that id, once), and the request document gets status
"returned" and the return timestamp. -/
theorem returnAsset_spec (db : DB) (id now : Nat) :
    ((returnAsset db id now).1 = ReturnResult.ok ↔
      ∃ req, findOne db.requests id = some req ∧
        req.requestStatus = "approved" ∧ req.assetType = "Returnable") ∧
    (∀ req aid, findOne db.requests id = some req →
      req.requestStatus = "approved" → req.assetType = "Returnable" →
      req.assetId = some aid →
      (returnAsset db id now).2.assets = updateFirst db.assets aid
        (fun a => { a with availableQuantity := a.availableQuantity + 1 }) ∧
      (returnAsset db id now).2.requests = updateFirst db.requests id
        (fun r => { r with requestStatus := "returned"
                           returnDate := some now })) := by
  constructor
  · constructor
    · intro hok
      cases hf : findOne db.requests id with
      | none => simp [returnAsset, hf] at hok
      | some req =>
        by_cases h1 : req.requestStatus = "approved"
        · by_cases h2 : req.assetType = "Returnable"
          · exact ⟨req, rfl, h1, h2⟩
          · simp [returnAsset, hf, h1, h2] at hok
        · simp [returnAsset, hf, h1] at hok
    · rintro ⟨req, hfind, h1, h2⟩
      simp [returnAsset, hfind, h1, h2]
  · intro req aid hfind h1 h2 haid
    simp only [returnAsset, hfind, h1, h2, haid]
    simp

/-- Claim C6, witness: returning a concrete approved Returnable request
succeeds and increments the asset's available quantity by exactly 1. -/
theorem returnAsset_spec_witness :
    ((returnAsset dbApproved 1 9).1 = ReturnResult.ok ↔
      ∃ req, findOne dbApproved.requests 1 = some req ∧
        req.requestStatus = "approved" ∧ req.assetType = "Returnable") ∧
    (returnAsset dbApproved 1 9).2.assets = updateFirst dbApproved.assets 1
      (fun a => { a with availableQuantity := a.availableQuantity + 1 }) :=
  ⟨(returnAsset_spec dbApproved 1 9).1,
   ((returnAsset_spec dbApproved 1 9).2
     { sampleRequest with requestStatus := "approved" } 1
     (by decide) (by decide) (by decide) (by decide)).1⟩

/-- Claim C7: returning an approved Returnable request whose asset record
has been deleted still succeeds: the request transitions to "returned" with
a return timestamp, and the inventory increment is a silent no-op — the
assets collection is unchanged. -/
theorem returnAsset_deleted_asset (db : DB) (id now : Nat) (req : Request)
    (aid : Nat)
    (hfind : findOne db.requests id = some req)
    (happ : req.requestStatus = "approved")
    (hret : req.assetType = "Returnable")
    (haid : req.assetId = some aid)
    (hgone : findOne db.assets aid = none) :
    (returnAsset db id now).1 = ReturnResult.ok ∧
    (returnAsset db id now).2.assets = db.assets ∧
    findOne (returnAsset db id now).2.requests id =
      some { req with requestStatus := "returned", returnDate := some now } := by
  have hres : returnAsset db id now =
      (ReturnResult.ok, { db with
        requests := updateFirst db.requests id
          (fun r => { r with requestStatus := "returned"
                             returnDate := some now })
        assets := updateFirst db.assets aid
          (fun a => { a with availableQuantity := a.availableQuantity + 1 }) }) := by
    simp [returnAsset, hfind, happ, hret, haid]
  rw [hres]
  refine ⟨rfl, ?_, ?_⟩
  · exact updateFirst_of_findOne_none _ _ _ hgone
  · rw [findOne_updateFirst_self, hfind]
    rfl

/-- Claim C7, witness: at a concrete database whose asset record was
deleted, the return call still succeeds and the assets collection stays
empty. -/
theorem returnAsset_deleted_asset_witness :
    (returnAsset dbApprovedGone 1 9).1 = ReturnResult.ok ∧
    (returnAsset dbApprovedGone 1 9).2.assets = dbApprovedGone.assets ∧
    findOne (returnAsset dbApprovedGone 1 9).2.requests 1 =
      some { { sampleRequest with requestStatus := "approved" } with
             requestStatus := "returned", returnDate := some 9 } :=
  returnAsset_deleted_asset dbApprovedGone 1 9
    { sampleRequest with requestStatus := "approved" } 1
    (by decide) (by decide) (by decide) (by decide) (by decide)

/-- Claim C8, counterexample: submitting a request against an asset id with
no matching asset record does not fail with NotFound — the handler never
reads the assets collection.  The request is created anyway, with every
snapshot field (name, type, image, company) taken from the client body. -/
theorem submit_no_asset_lookup_counterexample :
    findOne dbEmpty.assets 99 = none ∧
    (submitRequest dbEmpty (some 99) "Phantom" "Returnable" none none "Eve"
      (some "eve@acme.com") none none 7 3).1 = SubmitResult.created 7 ∧
    findOne (submitRequest dbEmpty (some 99) "Phantom" "Returnable" none none
      "Eve" (some "eve@acme.com") none none 7 3).2.requests 7 =
      some { assetId := some 99, assetName := "Phantom"
             assetType := "Returnable", hrEmail := none
             companyName := "Unknown Company", requesterName := "Eve"
             requesterEmail := "eve@acme.com", assetImage := none
             requestDate := 3, approvalDate := none
             requestStatus := "pending", note := "", processedBy := none
             returnDate := none } := by
  decide

/-- Claim C8, amended: the submit handler performs no asset lookup.  It
requires only `assetId` and `requesterEmail` to be present; the created
request copies name, type, image, company and approver email from the client
body, and is stored with status "pending", a server-set request timestamp,
and null approval timestamp and processor identity; the assets collection is
not consulted or changed. -/
theorem submitRequest_amended (db : DB) (aid : Nat)
    (assetName assetType : String) (companyName hrEmail : Option String)
    (requesterName remail : String) (note assetImage : Option String)
    (newId now : Nat) :
    (submitRequest db (some aid) assetName assetType companyName hrEmail
        requesterName (some remail) note assetImage newId now).1 =
      SubmitResult.created newId ∧
    (submitRequest db (some aid) assetName assetType companyName hrEmail
        requesterName (some remail) note assetImage newId now).2.assets =
      db.assets ∧
    (submitRequest db (some aid) assetName assetType companyName hrEmail
        requesterName (some remail) note assetImage newId now).2.requests =
      db.requests ++ [(newId,
        { assetId := some aid, assetName := assetName, assetType := assetType
          hrEmail := hrEmail
          companyName := companyName.getD "Unknown Company"
          requesterName := requesterName, requesterEmail := remail
          assetImage := assetImage, requestDate := now, approvalDate := none
          requestStatus := "pending", note := note.getD ""
          processedBy := none, returnDate := none })] :=
  ⟨rfl, rfl, rfl⟩

/-- Claim C10: approving a pending request whose referenced asset record no
longer exists still returns Ok and marks the request approved with approval
timestamp and processor identity; the inventory decrement is a silent no-op,
so the assets collection is unchanged. -/
theorem approve_deleted_asset (db : DB) (id now : Nat) (req : Request)
    (aid : Nat)
    (hfind : findOne db.requests id = some req)
    (hpend : req.requestStatus = "pending")
    (haid : req.assetId = some aid)
    (hgone : findOne db.assets aid = none) :
    (approveRequest db id now).1 = ApproveResult.ok ∧
    (approveRequest db id now).2.assets = db.assets ∧
    findOne (approveRequest db id now).2.requests id =
      some { req with requestStatus := "approved", approvalDate := some now
                      processedBy := some "HR" } := by
  rw [approveRequest_eq_of_proceed db id now req hfind hpend]
  refine ⟨rfl, ?_, ?_⟩
  · rw [applyApproveStatus_assets]
    simp only [applyDecrement, haid]
    exact updateFirst_of_findOne_none _ _ _ hgone
  · simp only [applyApproveStatus]
    rw [applyDecrement_requests, findOne_updateFirst_self, hfind]
    rfl

/-- Claim C10, witness: at a concrete database with a pending request and no
asset record, the approve call returns Ok, approves the request, and leaves
the (empty) assets collection unchanged. -/
theorem approve_deleted_asset_witness :
    (approveRequest dbPendingGone 1 5).1 = ApproveResult.ok ∧
    (approveRequest dbPendingGone 1 5).2.assets = dbPendingGone.assets ∧
    findOne (approveRequest dbPendingGone 1 5).2.requests 1 =
      some { sampleRequest with
             requestStatus := "approved", approvalDate := some 5
             processedBy := some "HR" } :=
  approve_deleted_asset dbPendingGone 1 5 sampleRequest 1
    (by decide) (by decide) (by decide) (by decide)

/-! Lemmas for the my-team query. -/

theorem teamGroupFor_companyName (db : DB) (c : String) (g : TeamGroup)
    (hg : teamGroupFor db c = some g) : g.companyName = c := by
  simp only [teamGroupFor] at hg
  split at hg
  · cases hg
  · injection hg with h
    subst h
    rfl

theorem filterMap_company_count (mk : String → Option TeamGroup)
    (hmk : ∀ c g, mk c = some g → g.companyName = c) (C : String) :
    ∀ (cs : List String), cs.Nodup → C ∈ cs → (mk C).isSome →
    ((cs.filterMap mk).filter (fun t => t.companyName = C)).length = 1 := by
  intro cs
  induction cs with
  | nil =>
    intro _ h
    cases h
  | cons c rest ih =>
    intro hnd hmem hsome
    by_cases hc : c = C
    · subst hc
      obtain ⟨g, hg⟩ := Option.isSome_iff_exists.mp hsome
      rw [List.filterMap_cons_some hg]
      have hgc : g.companyName = c := hmk c g hg
      rw [List.filter_cons_of_pos (by simp [hgc])]
      have hnotin : c ∉ rest := (List.nodup_cons.mp hnd).1
      have hzero :
          ((rest.filterMap mk).filter
            (fun t => t.companyName = c)).length = 0 := by
        rw [List.length_eq_zero, List.filter_eq_nil_iff]
        intro t ht
        obtain ⟨c', hc', hgc'⟩ := List.mem_filterMap.mp ht
        have := hmk c' t hgc'
        simp only [this]
        intro hcc
        have hcc' : c' = c := of_decide_eq_true hcc
        subst hcc'
        exact hnotin hc'
      simp [hzero]
    · have hmem' : C ∈ rest := by
        cases List.mem_cons.mp hmem with
        | inl h => exact absurd h.symm hc
        | inr h => exact h
      have hrest := ih (List.nodup_cons.mp hnd).2 hmem' hsome
      cases hmkc : mk c with
      | none => rw [List.filterMap_cons_none hmkc]; exact hrest
      | some g =>
        have hgc : g.companyName = c := hmk c g hmkc
        rw [List.filterMap_cons_some hmkc]
        rw [List.filter_cons_of_neg (by simp [hgc, hc])]
        exact hrest

theorem colleague_filter_count (users : List User) (emails : List String)
    (e : String) (he : e ∈ emails) :
    (((users.filter (fun u => u.email ∈ emails)).map projectSummary).filter
        (fun s => s.email = e)).length
      = (users.filter (fun u => u.email = e)).length := by
  induction users with
  | nil => rfl
  | cons u rest ih =>
    by_cases hmem : u.email ∈ emails
    · by_cases hu : u.email = e
      · simp [List.filter_cons, hmem, hu, he, projectSummary, ih]
      · simp [List.filter_cons, hmem, hu, projectSummary, ih]
    · have hu : u.email ≠ e := fun h => hmem (h ▸ he)
      simp [List.filter_cons, hmem, hu, ih]

/-- Claim C9: if employee E has an approved request at company C (C nonempty)
and colleague F has an approved request at C, and the users collection holds
exactly one document for each of E and F, then the my-team query for E
returns exactly one group for company C, and every such group's colleague
list contains E exactly once and F exactly once — no duplicates even when E
or F has several approved requests at C. -/
theorem teamOf_spec (db : DB) (E F C : String) (ridE ridF : Nat)
    (reqE reqF : Request)
    (hEmem : (ridE, reqE) ∈ db.requests)
    (hEmail : reqE.requesterEmail = E)
    (hEst : reqE.requestStatus = "approved")
    (hEco : reqE.companyName = C)
    (hFmem : (ridF, reqF) ∈ db.requests)
    (hFmail : reqF.requesterEmail = F)
    (hFst : reqF.requestStatus = "approved")
    (hFco : reqF.companyName = C)
    (hC : C ≠ "")
    (hUE : (db.users.filter (fun u => u.email = E)).length = 1)
    (hUF : (db.users.filter (fun u => u.email = F)).length = 1) :
    ((teamOf db E).filter (fun t => t.companyName = C)).length = 1 ∧
    (∀ t, t ∈ teamOf db E → t.companyName = C →
      (t.colleagues.filter (fun s => s.email = E)).length = 1 ∧
      (t.colleagues.filter (fun s => s.email = F)).length = 1) := by
  have hmyE : (ridE, reqE) ∈ db.requests.filter
      (fun p => p.2.requesterEmail = E ∧ p.2.requestStatus = "approved") :=
    List.mem_filter.mpr ⟨hEmem, by simp [hEmail, hEst]⟩
  have hnil : db.requests.filter
      (fun p => p.2.requesterEmail = E ∧ p.2.requestStatus = "approved") ≠ [] :=
    List.ne_nil_of_mem hmyE
  have hne : (db.requests.filter
      (fun p => p.2.requesterEmail = E ∧
        p.2.requestStatus = "approved")).isEmpty = false := by
    simpa using hnil
  have hteam : teamOf db E =
      (jsSetDedup ((db.requests.filter
        (fun p => p.2.requesterEmail = E ∧ p.2.requestStatus = "approved")).map
          (fun p => companyNameOrDefault p.2.companyName))).filterMap
        (teamGroupFor db) := by
    simp only [teamOf]
    rw [hne]
    simp
  have hCdef : companyNameOrDefault C = C := by simp [companyNameOrDefault, hC]
  have hCmem : C ∈ jsSetDedup ((db.requests.filter
      (fun p => p.2.requesterEmail = E ∧ p.2.requestStatus = "approved")).map
        (fun p => companyNameOrDefault p.2.companyName)) :=
    (mem_jsSetDedup _ _).mpr
      (List.mem_map.mpr ⟨(ridE, reqE), hmyE, by rw [hEco]; exact hCdef⟩)
  have hEcompany : (ridE, reqE) ∈ db.requests.filter
      (fun p => p.2.companyName = C ∧ p.2.requestStatus = "approved") :=
    List.mem_filter.mpr ⟨hEmem, by simp [hEco, hEst]⟩
  have hFcompany : (ridF, reqF) ∈ db.requests.filter
      (fun p => p.2.companyName = C ∧ p.2.requestStatus = "approved") :=
    List.mem_filter.mpr ⟨hFmem, by simp [hFco, hFst]⟩
  have hneC : (db.requests.filter
      (fun p => p.2.companyName = C ∧
        p.2.requestStatus = "approved")).isEmpty = false := by
    simpa using List.ne_nil_of_mem hEcompany
  have hmkC : teamGroupFor db C = some
      { companyName := C
        colleagues := (db.users.filter (fun u => u.email ∈
          jsSetDedup ((db.requests.filter
            (fun p => p.2.companyName = C ∧
              p.2.requestStatus = "approved")).map
            (fun p => p.2.requesterEmail)))).map projectSummary } := by
    simp [teamGroupFor, hneC]
    exact ⟨ridE, reqE, hEmem, hEco, hEst⟩
  have hEin : E ∈ jsSetDedup ((db.requests.filter
      (fun p => p.2.companyName = C ∧ p.2.requestStatus = "approved")).map
        (fun p => p.2.requesterEmail)) :=
    (mem_jsSetDedup _ _).mpr
      (List.mem_map.mpr ⟨(ridE, reqE), hEcompany, hEmail⟩)
  have hFin : F ∈ jsSetDedup ((db.requests.filter
      (fun p => p.2.companyName = C ∧ p.2.requestStatus = "approved")).map
        (fun p => p.2.requesterEmail)) :=
    (mem_jsSetDedup _ _).mpr
      (List.mem_map.mpr ⟨(ridF, reqF), hFcompany, hFmail⟩)
  constructor
  · rw [hteam]
    exact filterMap_company_count (teamGroupFor db)
      (teamGroupFor_companyName db) C _ (nodup_jsSetDedup _) hCmem
      (by rw [hmkC]; rfl)
  · intro t ht htC
    rw [hteam] at ht
    obtain ⟨c, hcmem, hgc⟩ := List.mem_filterMap.mp ht
    have hcC : c = C := by
      rw [← htC]
      exact (teamGroupFor_companyName db c t hgc).symm
    subst hcC
    rw [hmkC] at hgc
    injection hgc with h
    subst h
    constructor
    · exact (colleague_filter_count db.users _ E hEin).trans hUE
    · exact (colleague_filter_count db.users _ F hFin).trans hUF

/-- Claim C9, witness: in the concrete team database where Eve has two
approved requests at Acme and Fay one, the my-team query for Eve yields
exactly one Acme group, and that group lists Eve and Fay once each. -/
theorem teamOf_spec_witness :
    ((teamOf dbTeam "eve@acme.com").filter
      (fun t => t.companyName = "Acme")).length = 1 ∧
    ((TeamGroup.mk "Acme"
        [projectSummary sampleUser, projectSummary fayUser]).colleagues.filter
      (fun s => s.email = "eve@acme.com")).length = 1 ∧
    ((TeamGroup.mk "Acme"
        [projectSummary sampleUser, projectSummary fayUser]).colleagues.filter
      (fun s => s.email = "fay@acme.com")).length = 1 :=
  have h := teamOf_spec dbTeam "eve@acme.com" "fay@acme.com" "Acme" 1 3
    reqApprovedEve reqApprovedFay
    (by decide) (by decide) (by decide) (by decide) (by decide) (by decide)
    (by decide) (by decide) (by decide) (by decide) (by decide)
  ⟨h.1,
   (h.2 (TeamGroup.mk "Acme"
      [projectSummary sampleUser, projectSummary fayUser])
     (by decide) (by decide)).1,
   (h.2 (TeamGroup.mk "Acme"
      [projectSummary sampleUser, projectSummary fayUser])
     (by decide) (by decide)).2⟩
